import Mathlib

/-!
Verification of the construction-estimation backend (src/backend/main.py)
against its natural-language specification.

The Python source is shallowly embedded: the in-memory project store is a
list of key/project pairs (mirroring the insertion-ordered `projects_db`
dict), HTTP endpoints become pure functions returning `Except HttpError`,
the external AI service and the PDF/spreadsheet collaborators are supplied
as explicit inputs, and Python floats are modelled by rationals.
-/

namespace MegaAiApp

/-- One attempt against the remote service either yields an HTTP response
with a status code, or raises a transport-level fault
(`requests.exceptions.RequestException`), identified by its message. -/
inductive CallResult where
  | resp (status : Nat)
  | fault (msg : String)
deriving DecidableEq, Repr

/-- A simulated remote service: what the `requests.post` call in
`_call_gemini_api_with_retry` produces on the n-th attempt (0-based). -/
def Service : Type := Nat → CallResult

/-- Observable outcome of `_call_gemini_api_with_retry`: how many calls
were made, the sequence of `time.sleep` backoff durations (in seconds),
and either the returned response status or the re-raised fault message. -/
structure RetryOutcome where
  calls : Nat
  sleeps : List Nat
  result : Except String Nat
deriving Repr

/-- The body of the retry loop of `_call_gemini_api_with_retry`
(src/backend/main.py lines 72-88).  `fuel` is the number of loop
iterations still available (`retries - attempt`), `attempt` the 0-based
attempt index, `backoff` the current `backoff_factor`, and `last` the
value of the Python variable `response` from the previous iteration, used
by the `return response` after the loop. A response with status >= 500
sleeps, doubles the backoff and continues; any other response is returned
at once; a transport fault sleeps and retries unless this is the final
attempt, in which case it is re-raised. -/
def retryGo (service : Service) : Nat → Nat → Nat → Option Nat → RetryOutcome
  | 0, _, _, last =>
      { calls := 0, sleeps := [],
        result := match last with
          | some s => Except.ok s
          | none => Except.error "NameError: response" }
  | fuel + 1, attempt, backoff, _ =>
      match service attempt with
      | CallResult.resp s =>
          if 500 ≤ s then
            let r := retryGo service fuel (attempt + 1) (backoff * 2) (some s)
            { calls := r.calls + 1, sleeps := backoff :: r.sleeps, result := r.result }
          else
            { calls := 1, sleeps := [], result := Except.ok s }
      | CallResult.fault m =>
          if fuel = 0 then
            { calls := 1, sleeps := [], result := Except.error m }
          else
            let r := retryGo service fuel (attempt + 1) (backoff * 2) none
            { calls := r.calls + 1, sleeps := backoff :: r.sleeps, result := r.result }

/-- `_call_gemini_api_with_retry`: 3 total attempts, backoff starting at
1 second. -/
def callWithRetry (service : Service) : RetryOutcome :=
  retryGo service 3 0 1 none

/-- A service that answers 503 twice and then 200. -/
def svc503x2then200 : Service :=
  fun n => if n < 2 then CallResult.resp 503 else CallResult.resp 200

/-- A service that always answers 503. -/
def svcAlways503 : Service := fun _ => CallResult.resp 503

/-- A service that raises a transport fault on every attempt, with
per-attempt messages. -/
def svcAllFaults (m0 m1 m2 : String) : Service :=
  fun n => if n = 0 then CallResult.fault m0
    else if n = 1 then CallResult.fault m1 else CallResult.fault m2

/-- A service whose first attempt already yields the given status. -/
def svcFirst (status : Nat) : Service := fun _ => CallResult.resp status

theorem retryGo_calls_le (service : Service) :
    ∀ fuel attempt backoff last,
      (retryGo service fuel attempt backoff last).calls ≤ fuel := by
  intro fuel
  induction fuel with
  | zero => intro attempt backoff last; simp [retryGo]
  | succ n ih =>
      intro attempt backoff last
      simp only [retryGo]
      cases service attempt with
      | resp s =>
          by_cases h : 500 ≤ s
          · simp only [h, if_true]
            exact Nat.succ_le_succ (ih (attempt + 1) (backoff * 2) (some s))
          · simp [h]
      | fault m =>
          by_cases h : n = 0
          · simp [h]
          · simp only [h, if_false]
            exact Nat.succ_le_succ (ih (attempt + 1) (backoff * 2) none)

theorem retryGo_sleeps_shape (service : Service) :
    ∀ fuel attempt backoff last, ∃ k ≤ fuel,
      (retryGo service fuel attempt backoff last).sleeps =
        (List.range k).map (fun i => backoff * 2 ^ i) := by
  intro fuel
  induction fuel with
  | zero =>
      intro attempt backoff last
      exact ⟨0, Nat.zero_le 0, by simp [retryGo]⟩
  | succ n ih =>
      intro attempt backoff last
      simp only [retryGo]
      cases service attempt with
      | resp s =>
          by_cases h : 500 ≤ s
          · obtain ⟨k, hk, hs⟩ := ih (attempt + 1) (backoff * 2) (some s)
            refine ⟨k + 1, Nat.succ_le_succ hk, ?_⟩
            simp only [h, if_true, hs, List.range_succ_eq_map, List.map_cons, List.map_map]
            congr 1
            · ring
            · apply List.map_congr_left
              intro i _
              simp only [Function.comp_apply, pow_succ]
              ring
          · exact ⟨0, Nat.zero_le _, by simp [retryGo, h]⟩
      | fault m =>
          by_cases h : n = 0
          · exact ⟨0, Nat.zero_le _, by simp [retryGo, h]⟩
          · obtain ⟨k, hk, hs⟩ := ih (attempt + 1) (backoff * 2) none
            refine ⟨k + 1, Nat.succ_le_succ hk, ?_⟩
            simp only [h, if_false, hs, List.range_succ_eq_map, List.map_cons, List.map_map]
            congr 1
            · ring
            · apply List.map_congr_left
              intro i _
              simp only [Function.comp_apply, pow_succ]
              ring

/-! ## JSON values, AI results, and the two AI helper functions -/

/-- A JSON value, as produced by `json.loads` on the model's reply. -/
inductive Json where
  | null
  | str (s : String)
  | num (q : ℚ)
  | bool (b : Bool)
  | arr (elems : List Json)
  | obj (fields : List (String × Json))

/-- The dict returned by `get_ai_spec_summary` / `get_ai_estimate_analysis`:
either the parsed payload, or the failure-marker dict
`{"error": reason}` (a tagged result, never an exception). -/
inductive AiResult where
  | payload (data : Json)
  | failure (reason : String)

/-- Outcome of the parse chain
`response.json()['candidates'][0]['content']['parts'][0]['text']`
followed by `json.loads`: either a payload, or some exception (malformed
JSON, missing key, wrong shape) with its message. -/
inductive ParseOutcome where
  | parsed (payload : Json)
  | malformed (msg : String)

/-- The failure dict for a non-200 terminal response. -/
def statusFailureMsg (status : Nat) : String :=
  "The AI model returned an error (Code: " ++ toString status ++ ")."

/-- The catch-all failure message of `get_ai_spec_summary`. -/
def specFailureMsg : String :=
  "Failed to get a valid structured summary from the AI model."

/-- The catch-all failure message of `get_ai_estimate_analysis`. -/
def analysisFailureMsg : String :=
  "Failed to get a valid analysis from the AI model."

/-- The `try` body shared by `get_ai_spec_summary` and
`get_ai_estimate_analysis` (src/backend/main.py lines 125-132 and
174-181): call the retry helper (whose re-raised transport fault
propagates as an exception), return a failure dict on a non-200 status,
otherwise parse the reply (whose failure propagates as an exception).
`Except.error` is a Python exception reaching the `except` clause. -/
def aiCallBody (service : Service) (parse : ParseOutcome) : Except String AiResult :=
  match (callWithRetry service).result with
  | Except.error m => Except.error m
  | Except.ok status =>
      if status ≠ 200 then
        Except.ok (AiResult.failure (statusFailureMsg status))
      else
        match parse with
        | ParseOutcome.parsed p => Except.ok (AiResult.payload p)
        | ParseOutcome.malformed m => Except.error m

/-- `get_ai_spec_summary`: the text argument only shapes the prompt; the
outcome is determined by the service behaviour and the parse outcome.
Any exception is caught and downgraded to the generic failure dict. -/
def get_ai_spec_summary (_specText : String) (service : Service)
    (parse : ParseOutcome) : AiResult :=
  match aiCallBody service parse with
  | Except.ok r => r
  | Except.error _ => AiResult.failure specFailureMsg

/-! ## Data model: line items, scopes, projects, store -/

/-- One row of `estimate_data`: the dict produced by
`df.to_dict(orient='records')`, optionally extended by `update_price`
with the `unitPrice` and `total` keys (`none` = key absent). -/
structure LineItem where
  description : String
  quantity : ℚ
  uom : String
  unitPrice : Option ℚ
  total : Option ℚ
deriving DecidableEq, Repr

/-- `get_ai_estimate_analysis`: same structure and failure contract as
`get_ai_spec_summary`, with its own generic failure message. -/
def get_ai_estimate_analysis (_items : List LineItem) (service : Service)
    (parse : ParseOutcome) : AiResult :=
  match aiCallBody service parse with
  | Except.ok r => r
  | Except.error _ => AiResult.failure analysisFailureMsg

/-- A scope dict as built by `add_scope_to_project`.  `estimate_analysis`
is `none` while the stored dict is the initial `{}`. -/
structure Scope where
  scope_id : String
  scope_of_work : String
  spec_filename : String
  ai_summary : AiResult
  estimate_data : List LineItem
  estimate_analysis : Option AiResult

/-- A project dict in `projects_db`. -/
structure Project where
  id : String
  project_name : String
  scopes : List Scope

/-- The in-memory `projects_db` dict: insertion-ordered keys mapped to
project dicts. -/
abbrev Store : Type := List (String × Project)

/-- A `fastapi.HTTPException`: status code plus detail message. -/
structure HttpError where
  status : Nat
  detail : String
deriving DecidableEq, Repr

/-- `str()` of a raised `HTTPException` (starlette renders it as
`"{status_code}: {detail}"`). -/
def exceptionText (e : HttpError) : String :=
  toString e.status ++ ": " ++ e.detail

/-! ## Spreadsheet tables and estimate normalization -/

/-- A cell may be missing (`NaN` after `pd.read_excel`) or present; the
three required columns carry text (Description, Size) or numbers
(Quantity). -/
structure RawRow where
  description : Option String
  quantity : Option ℚ
  size : Option String
deriving DecidableEq, Repr

/-- A parsed spreadsheet: its column labels (as read, before stripping)
and its rows, each row giving the values under the three columns the
pipeline consumes.  Extra columns are dropped by the code and carry no
data here. -/
structure Table where
  cols : List String
  rows : List RawRow

/-- Python `str.strip()`: drop leading and trailing whitespace. -/
def pyStrip (s : String) : String :=
  ⟨((s.data.dropWhile Char.isWhitespace).reverse.dropWhile Char.isWhitespace).reverse⟩

/-- The `required` list of `upload_estimate`. -/
def requiredCols : List String := ["Description", "Quantity", "Size"]

/-- `[c for c in required if c not in df.columns]` after the column
labels have been stripped of whitespace. -/
def missingCols (t : Table) : List String :=
  requiredCols.filter (fun c => !((t.cols.map pyStrip).contains c))

/-- The normalization pipeline of `upload_estimate` once the required
columns are present: keep the three required columns, fill missing
Description/Size with `""` and missing Quantity with 0, drop rows whose
Description is empty, rename Size to UOM, convert to records. -/
def tableItems (t : Table) : List LineItem :=
  (t.rows.map (fun r =>
    { description := r.description.getD "", quantity := r.quantity.getD 0,
      uom := r.size.getD "", unitPrice := none, total := none : LineItem })).filter
    (fun it => it.description != "")

/-- The `try` body of `upload_estimate` after the file has been read:
either the normalized records, or the 400 validation error naming the
missing required columns. -/
def uploadBody (t : Table) : Except HttpError (List LineItem) :=
  let missing := missingCols t
  bif missing.isEmpty then Except.ok (tableItems t)
  else Except.error ⟨400, "Missing columns: " ++ String.intercalate ", " missing⟩

/-! ## Store lookups and updates -/

/-- Scan a scope list for the first scope with the given `scope_id`,
returning it with its index (the loop of `find_scope`). -/
def findScopeIn : List Scope → String → Nat → Option (Scope × Nat)
  | [], _, _ => none
  | sc :: rest, sid, i =>
      if sc.scope_id = sid then some (sc, i) else findScopeIn rest sid (i + 1)

/-- `find_scope`, also exposing the looked-up project: 404 when the
project id is absent, 404 when no scope in it carries the scope id. -/
def findScopeFull (db : Store) (pid sid : String) :
    Except HttpError (Project × Scope × Nat) :=
  match db.lookup pid with
  | none => Except.error ⟨404, "Project not found"⟩
  | some p =>
      match findScopeIn p.scopes sid 0 with
      | some (sc, i) => Except.ok (p, sc, i)
      | none => Except.error ⟨404, "Scope not found"⟩

/-- `find_scope(project_id, scope_id)` as in the source: the scope and
its index. -/
def find_scope (db : Store) (pid sid : String) : Except HttpError (Scope × Nat) :=
  match findScopeFull db pid sid with
  | Except.error e => Except.error e
  | Except.ok (_, sc, i) => Except.ok (sc, i)

/-- Overwrite the project stored under an existing key (in-place dict
value mutation: key order is unchanged). -/
def setProject (db : Store) (pid : String) (p : Project) : Store :=
  db.map (fun kv => bif kv.1 == pid then (kv.1, p) else kv)

/-- Python dict insertion: an absent key is appended, an existing key is
overwritten in place. -/
def dictInsert (db : Store) (pid : String) (p : Project) : Store :=
  bif (db.lookup pid).isSome then setProject db pid p else db ++ [(pid, p)]

/-- Replace the scope at index `i` of a project. -/
def updateScopeAt (p : Project) (i : Nat) (sc : Scope) : Project :=
  { p with scopes := p.scopes.set i sc }

/-! ## Endpoint operations -/

/-- `create_project`: insert a fresh project with an empty scope list
under the (freshly drawn) id. -/
def create_project (db : Store) (pid projectName : String) : Store :=
  dictInsert db pid { id := pid, project_name := projectName, scopes := [] }

/-- `delete_project`: 404 when absent, otherwise remove the key. -/
def delete_project (db : Store) (pid : String) : Except HttpError Store :=
  bif (db.lookup pid).isSome then
    Except.ok (db.filter (fun kv => !(kv.1 == pid)))
  else Except.error ⟨404, "Project not found"⟩

/-- `add_scope_to_project`.  `pdfText` is the outcome of
`pypdf.PdfReader` plus page-text extraction (`Except.error` = exception
message); the AI client runs only when the extracted text has non-blank
content.  Returns the updated store and the number of AI-client calls
made (0 or 1). -/
def add_scope_to_project (db : Store) (pid scopeOfWork newSid filename : String)
    (pdfText : Except String String) (service : Service) (parse : ParseOutcome) :
    Except HttpError (Store × Nat) :=
  match db.lookup pid with
  | none => Except.error ⟨404, "Project not found"⟩
  | some p =>
      let summaryCalls : AiResult × Nat :=
        match pdfText with
        | Except.error m => (AiResult.failure ("Failed to read PDF: " ++ m), 0)
        | Except.ok text =>
            if pyStrip text ≠ "" then (get_ai_spec_summary text service parse, 1)
            else (AiResult.failure "Could not process spec.", 0)
      let newScope : Scope :=
        { scope_id := newSid, scope_of_work := scopeOfWork, spec_filename := filename,
          ai_summary := summaryCalls.1, estimate_data := [], estimate_analysis := none }
      Except.ok (setProject db pid { p with scopes := p.scopes ++ [newScope] }, summaryCalls.2)

/-- `upload_estimate`.  `file` is the outcome of `pd.read_excel`
(`Except.error` = exception message).  `find_scope` runs before the
`try`, so its 404 passes through; every exception raised inside the
`try` — including the 400 `HTTPException` for missing columns — is
caught and re-raised as a 500 wrapping `str(e)`. -/
def upload_estimate (db : Store) (pid sid : String) (file : Except String Table) :
    Except HttpError Store :=
  match findScopeFull db pid sid with
  | Except.error e => Except.error e
  | Except.ok (p, sc, i) =>
      match file with
      | Except.error m => Except.error ⟨500, "Could not read Excel file: " ++ m⟩
      | Except.ok t =>
          match uploadBody t with
          | Except.error e =>
              Except.error ⟨500, "Could not read Excel file: " ++ exceptionText e⟩
          | Except.ok items =>
              Except.ok (setProject db pid
                (updateScopeAt p i { sc with estimate_data := items }))

/-- A stand-in line item for the (provably unreachable) out-of-bounds
read in `update_price`. -/
def dummyItem : LineItem :=
  { description := "", quantity := 0, uom := "", unitPrice := none, total := none }

/-- `update_price`: bounds-check `0 <= item_index < len(estimate_data)`
(the index is a Python int, so it may be negative), then set the item's
`unitPrice` and recompute `total = Quantity * unit_price`. -/
def update_price (db : Store) (pid sid : String) (itemIndex : Int) (unitPrice : ℚ) :
    Except HttpError (Store × LineItem) :=
  match findScopeFull db pid sid with
  | Except.error e => Except.error e
  | Except.ok (p, sc, i) =>
      if 0 ≤ itemIndex ∧ itemIndex < sc.estimate_data.length then
        let n := itemIndex.toNat
        let it := sc.estimate_data.getD n dummyItem
        let it' := { it with unitPrice := some unitPrice,
                             total := some (it.quantity * unitPrice) }
        Except.ok (setProject db pid
          (updateScopeAt p i { sc with estimate_data := sc.estimate_data.set n it' }), it')
      else Except.error ⟨400, "Item index out of range"⟩

/-- The filter of `analyze_estimate`: items with `Quantity > 0` that have
a `total` key. -/
def pricedItems (items : List LineItem) : List LineItem :=
  items.filter (fun it => decide (0 < it.quantity) && it.total.isSome)

/-- `analyze_estimate`: 400 when no priced item with positive quantity
exists, otherwise overwrite `estimate_analysis` with the fresh AI
analysis. -/
def analyze_estimate (db : Store) (pid sid : String) (service : Service)
    (parse : ParseOutcome) : Except HttpError Store :=
  match findScopeFull db pid sid with
  | Except.error e => Except.error e
  | Except.ok (p, sc, i) =>
      let priced := pricedItems sc.estimate_data
      if priced.isEmpty then
        Except.error ⟨400, "No priced items with quantities found to analyze."⟩
      else
        let analysis := get_ai_estimate_analysis priced service parse
        Except.ok (setProject db pid (updateScopeAt p i
          { sc with estimate_analysis := some analysis }))

/-! ## Startup snapshot loading -/

/-- What the startup code finds on disk: no `projects.json`, a file that
`json.load` rejects (`json.JSONDecodeError`), or a well-formed snapshot. -/
inductive SnapshotFile where
  | missing
  | corrupted (msg : String)
  | wellFormed (db : Store)

/-- `load_db`: a missing file leaves the (empty at startup) table as it
is, a corrupted file resets it to empty, a well-formed snapshot replaces
it wholesale. -/
def load_db (current : Store) (file : SnapshotFile) : Store :=
  match file with
  | SnapshotFile.missing => current
  | SnapshotFile.corrupted _ => []
  | SnapshotFile.wellFormed db => db

/-! ## Reachable states -/

/-- One public mutating request, with the behaviour of the external
collaborators (PDF reader, spreadsheet reader, AI service) baked into
the operation as explicit inputs. -/
inductive Op where
  | createProject (pid projectName : String)
  | deleteProject (pid : String)
  | addScope (pid sow sid fname : String) (pdfText : Except String String)
      (service : Service) (parse : ParseOutcome)
  | uploadEstimate (pid sid : String) (file : Except String Table)
  | updatePrice (pid sid : String) (idx : Int) (price : ℚ)
  | analyzeEstimate (pid sid : String) (service : Service) (parse : ParseOutcome)

/-- Apply one request to the store; a request answered with an
`HTTPException` leaves the store unchanged. -/
def step (db : Store) : Op → Store
  | Op.createProject pid name => create_project db pid name
  | Op.deleteProject pid =>
      match delete_project db pid with
      | Except.ok db' => db'
      | Except.error _ => db
  | Op.addScope pid sow sid fname pdf svc parse =>
      match add_scope_to_project db pid sow sid fname pdf svc parse with
      | Except.ok (db', _) => db'
      | Except.error _ => db
  | Op.uploadEstimate pid sid file =>
      match upload_estimate db pid sid file with
      | Except.ok db' => db'
      | Except.error _ => db
  | Op.updatePrice pid sid idx price =>
      match update_price db pid sid idx price with
      | Except.ok (db', _) => db'
      | Except.error _ => db
  | Op.analyzeEstimate pid sid svc parse =>
      match analyze_estimate db pid sid svc parse with
      | Except.ok db' => db'
      | Except.error _ => db

/-- The store after a sequence of requests, starting from the empty
table a fresh process holds. -/
def run (ops : List Op) : Store := ops.foldl step []

/-- The pricing invariant on one item: a `total`, when present, was
computed as `Quantity *` the also-present `unitPrice`. -/
def itemPriced (it : LineItem) : Bool :=
  match it.total, it.unitPrice with
  | none, _ => true
  | some t, some p => t == it.quantity * p
  | some _, none => false

/-- The pricing invariant over the whole store. -/
def invStore (db : Store) : Bool :=
  db.all (fun kv => kv.2.scopes.all (fun sc => sc.estimate_data.all itemPriced))

/-- Read off a scope's current line items (where `find_scope` would find
them), for stating what the mutating endpoints leave behind. -/
def scopeItems (db : Store) (pid sid : String) : Option (List LineItem) :=
  match findScopeFull db pid sid with
  | Except.ok (_, sc, _) => some sc.estimate_data
  | Except.error _ => none

/-! ## Helper lemmas on lookups and updates -/

theorem lookup_setProject_self (pid : String) (p' : Project) :
    ∀ (db : Store) (p : Project), db.lookup pid = some p →
      (setProject db pid p').lookup pid = some p' := by
  intro db
  induction db with
  | nil => intro p h; simp [List.lookup] at h
  | cons kv rest ih =>
      obtain ⟨k1, v1⟩ := kv
      intro p h
      by_cases hk : k1 = pid
      · subst hk
        simp only [setProject, List.map_cons, beq_self_eq_true, cond_true, List.lookup]
      · have hb : (k1 == pid) = false := beq_eq_false_iff_ne.mpr hk
        have hb' : (pid == k1) = false := beq_eq_false_iff_ne.mpr (fun e => hk e.symm)
        simp only [List.lookup, hb'] at h
        simp only [setProject, List.map_cons, hb, cond_false, List.lookup, hb']
        simpa [setProject] using ih p h

theorem lookup_setProject_ne (pid k : String) (p' : Project) (hne : k ≠ pid) :
    ∀ db : Store, (setProject db pid p').lookup k = db.lookup k := by
  intro db
  induction db with
  | nil => rfl
  | cons kv rest ih =>
      obtain ⟨k1, v1⟩ := kv
      by_cases hk : k1 = pid
      · subst hk
        have hb : (k == k1) = false := beq_eq_false_iff_ne.mpr hne
        simp only [setProject, List.map_cons, beq_self_eq_true, cond_true, List.lookup, hb]
        simpa [setProject] using ih
      · have hb : (k1 == pid) = false := beq_eq_false_iff_ne.mpr hk
        by_cases hkk : k = k1
        · subst hkk
          simp only [setProject, List.map_cons, hb, cond_false, List.lookup, beq_self_eq_true]
        · have hb2 : (k == k1) = false := beq_eq_false_iff_ne.mpr hkk
          simp only [setProject, List.map_cons, hb, cond_false, List.lookup, hb2]
          simpa [setProject] using ih

theorem findScopeIn_le :
    ∀ (scopes : List Scope) (sid : String) (k i : Nat) (sc : Scope),
      findScopeIn scopes sid k = some (sc, i) → k ≤ i := by
  intro scopes
  induction scopes with
  | nil => intro sid k i sc h; simp [findScopeIn] at h
  | cons hd tl ih =>
      intro sid k i sc h
      simp only [findScopeIn] at h
      by_cases hid : hd.scope_id = sid
      · rw [if_pos hid] at h
        cases h
        exact Nat.le_refl k
      · rw [if_neg hid] at h
        exact Nat.le_of_succ_le (ih sid (k + 1) i sc h)

theorem findScopeIn_get :
    ∀ (scopes : List Scope) (sid : String) (k i : Nat) (sc : Scope),
      findScopeIn scopes sid k = some (sc, i) →
      scopes[i - k]? = some sc ∧ sc.scope_id = sid ∧ i - k < scopes.length := by
  intro scopes
  induction scopes with
  | nil => intro sid k i sc h; simp [findScopeIn] at h
  | cons hd tl ih =>
      intro sid k i sc h
      simp only [findScopeIn] at h
      by_cases hid : hd.scope_id = sid
      · rw [if_pos hid] at h
        cases h
        simp [hid]
      · rw [if_neg hid] at h
        have hle := findScopeIn_le tl sid (k + 1) i sc h
        obtain ⟨hget, hsid, hlt⟩ := ih sid (k + 1) i sc h
        have hik : i - k = (i - (k + 1)) + 1 := by omega
        rw [hik]
        refine ⟨?_, hsid, by simp; omega⟩
        simpa using hget

theorem findScopeIn_set :
    ∀ (scopes : List Scope) (sid : String) (k i : Nat) (sc sc' : Scope),
      findScopeIn scopes sid k = some (sc, i) → sc'.scope_id = sc.scope_id →
      findScopeIn (scopes.set (i - k) sc') sid k = some (sc', i) := by
  intro scopes
  induction scopes with
  | nil => intro sid k i sc sc' h _; simp [findScopeIn] at h
  | cons hd tl ih =>
      intro sid k i sc sc' h hid'
      simp only [findScopeIn] at h
      by_cases hid : hd.scope_id = sid
      · rw [if_pos hid] at h
        cases h
        have h0 : k - k = 0 := Nat.sub_self k
        rw [h0]
        simp only [List.set_cons_zero, findScopeIn]
        rw [if_pos (by rw [hid', hid])]
      · rw [if_neg hid] at h
        have hle := findScopeIn_le tl sid (k + 1) i sc h
        have hik : i - k = (i - (k + 1)) + 1 := by omega
        rw [hik]
        simp only [List.set_cons_succ, findScopeIn]
        rw [if_neg hid]
        exact ih sid (k + 1) i sc sc' h hid'

theorem findScopeFull_ok_iff (db : Store) (pid sid : String) (p : Project)
    (sc : Scope) (i : Nat) :
    findScopeFull db pid sid = Except.ok (p, sc, i) ↔
      db.lookup pid = some p ∧ findScopeIn p.scopes sid 0 = some (sc, i) := by
  constructor
  · intro h
    unfold findScopeFull at h
    cases hl : db.lookup pid with
    | none => rw [hl] at h; simp at h
    | some q =>
        rw [hl] at h
        simp only [] at h
        cases hf : findScopeIn q.scopes sid 0 with
        | none => rw [hf] at h; simp at h
        | some r =>
            obtain ⟨sc0, i0⟩ := r
            rw [hf] at h
            simp only [Except.ok.injEq, Prod.mk.injEq] at h
            obtain ⟨hq, hsc, hi⟩ := h
            subst hq; subst hsc; subst hi
            exact ⟨rfl, hf⟩
  · rintro ⟨hl, hf⟩
    unfold findScopeFull
    rw [hl]
    simp only []
    rw [hf]

theorem findScopeFull_after_update (db : Store) (pid sid : String) (p : Project)
    (sc sc' : Scope) (i : Nat)
    (h : findScopeFull db pid sid = Except.ok (p, sc, i))
    (hid : sc'.scope_id = sc.scope_id) :
    findScopeFull (setProject db pid (updateScopeAt p i sc')) pid sid =
      Except.ok (updateScopeAt p i sc', sc', i) := by
  obtain ⟨hl, hf⟩ := (findScopeFull_ok_iff db pid sid p sc i).mp h
  have hset := findScopeIn_set p.scopes sid 0 i sc sc' hf hid
  rw [Nat.sub_zero] at hset
  exact (findScopeFull_ok_iff _ pid sid _ sc' i).mpr
    ⟨lookup_setProject_self pid _ db p hl, hset⟩

theorem uploadBody_ok_iff (t : Table) (items : List LineItem) :
    uploadBody t = Except.ok items ↔ missingCols t = [] ∧ items = tableItems t := by
  unfold uploadBody
  cases hm : (missingCols t).isEmpty with
  | true =>
      simp only [hm, cond_true, Except.ok.injEq]
      constructor
      · intro h; exact ⟨List.isEmpty_iff.mp hm, h.symm⟩
      · intro h; exact h.2.symm
  | false =>
      simp only [hm, cond_false]
      constructor
      · intro h; simp at h
      · intro h
        exact Bool.noConfusion (hm.symm.trans (List.isEmpty_iff.mpr h.1))

theorem upload_estimate_ok_shape (db : Store) (pid sid : String) (t : Table)
    (db' : Store) (h : upload_estimate db pid sid (Except.ok t) = Except.ok db') :
    ∃ p sc i, findScopeFull db pid sid = Except.ok (p, sc, i) ∧ missingCols t = [] ∧
      db' = setProject db pid (updateScopeAt p i { sc with estimate_data := tableItems t }) := by
  cases hf : findScopeFull db pid sid with
  | error e =>
      unfold upload_estimate at h
      rw [hf] at h
      simp at h
  | ok trip =>
      obtain ⟨p, sc, i⟩ := trip
      refine ⟨p, sc, i, rfl, ?_⟩
      unfold upload_estimate at h
      rw [hf] at h
      cases hb : uploadBody t with
      | error e => simp only [hb] at h; simp at h
      | ok items =>
          obtain ⟨hm, hitems⟩ := (uploadBody_ok_iff t items).mp hb
          subst hitems
          simp only [hb] at h
          simp only [Except.ok.injEq] at h
          exact ⟨hm, h.symm⟩

theorem upload_estimate_leaves_items (db : Store) (pid sid : String) (t : Table)
    (db' : Store) (h : upload_estimate db pid sid (Except.ok t) = Except.ok db') :
    scopeItems db' pid sid = some (tableItems t) := by
  obtain ⟨p, sc, i, hf, _, hdb⟩ := upload_estimate_ok_shape db pid sid t db' h
  subst hdb
  unfold scopeItems
  rw [findScopeFull_after_update db pid sid p sc
    { sc with estimate_data := tableItems t } i hf rfl]

/-! ## Theorems -/

/-- C1: The call-with-retry primitive makes at most 3 total attempts; a
5xx response or a transport fault is followed by a backoff wait starting
at 1 second and doubling each attempt, then a retry; 503 twice then 200
gives exactly 3 calls returning the 200; always-503 gives exactly 3
calls returning the final 503; a non-5xx (4xx or success) first response
is returned immediately after a single call with no sleeps; and when
every attempt raises a transport fault, the last attempt's fault is
re-raised. -/
theorem call_with_retry_correct :
    (∀ service : Service, (callWithRetry service).calls ≤ 3) ∧
    (∀ (service : Service) (status : Nat), status < 500 →
      service 0 = CallResult.resp status →
      callWithRetry service = ⟨1, [], Except.ok status⟩) ∧
    callWithRetry svc503x2then200 = ⟨3, [1, 2], Except.ok 200⟩ ∧
    callWithRetry svcAlways503 = ⟨3, [1, 2, 4], Except.ok 503⟩ ∧
    (∀ m0 m1 m2 : String,
      callWithRetry (svcAllFaults m0 m1 m2) = ⟨3, [1, 2], Except.error m2⟩) ∧
    (∀ service : Service, ∃ k ≤ 3,
      (callWithRetry service).sleeps = (List.range k).map (fun i => 2 ^ i)) := by
  refine ⟨fun s => retryGo_calls_le s 3 0 1 none, ?_, rfl, rfl, fun m0 m1 m2 => rfl, ?_⟩
  · intro service status hlt h0
    simp [callWithRetry, retryGo, h0, Nat.not_le.mpr hlt]
  · intro service
    obtain ⟨k, hk, hs⟩ := retryGo_sleeps_shape service 3 0 1 none
    refine ⟨k, hk, ?_⟩
    rw [callWithRetry, hs]
    simp

/-- Closed instance of `call_with_retry_correct`: a 404 first response is
returned immediately. -/
theorem call_with_retry_correct_witness :
    404 < 500 ∧ svcFirst 404 0 = CallResult.resp 404 ∧
    callWithRetry (svcFirst 404) = ⟨1, [], Except.ok 404⟩ :=
  ⟨by decide, rfl, call_with_retry_correct.2.1 (svcFirst 404) 404 (by decide) rfl⟩

/-- C2: neither AI-client operation ever raises to its caller: for every
input the result is a payload or a failure marker carrying one of the
explanatory messages; a transport fault surviving the retries, a non-200
terminal status, and a malformed reply each yield a failure marker. -/
theorem ai_operations_never_throw :
    (∀ (text : String) (service : Service) (parse : ParseOutcome),
      (∃ p, get_ai_spec_summary text service parse = AiResult.payload p) ∨
      get_ai_spec_summary text service parse = AiResult.failure specFailureMsg ∨
      (∃ status, status ≠ 200 ∧
        get_ai_spec_summary text service parse = AiResult.failure (statusFailureMsg status))) ∧
    (∀ (items : List LineItem) (service : Service) (parse : ParseOutcome),
      (∃ p, get_ai_estimate_analysis items service parse = AiResult.payload p) ∨
      get_ai_estimate_analysis items service parse = AiResult.failure analysisFailureMsg ∨
      (∃ status, status ≠ 200 ∧
        get_ai_estimate_analysis items service parse = AiResult.failure (statusFailureMsg status))) ∧
    (∀ (text : String) (service : Service) (parse : ParseOutcome) (m : String),
      (callWithRetry service).result = Except.error m →
      get_ai_spec_summary text service parse = AiResult.failure specFailureMsg) ∧
    (∀ (items : List LineItem) (service : Service) (parse : ParseOutcome) (m : String),
      (callWithRetry service).result = Except.error m →
      get_ai_estimate_analysis items service parse = AiResult.failure analysisFailureMsg) ∧
    (∀ (text : String) (service : Service) (parse : ParseOutcome) (status : Nat),
      (callWithRetry service).result = Except.ok status → status ≠ 200 →
      get_ai_spec_summary text service parse = AiResult.failure (statusFailureMsg status)) ∧
    (∀ (items : List LineItem) (service : Service) (parse : ParseOutcome) (status : Nat),
      (callWithRetry service).result = Except.ok status → status ≠ 200 →
      get_ai_estimate_analysis items service parse = AiResult.failure (statusFailureMsg status)) ∧
    (∀ (text : String) (service : Service) (m : String),
      (callWithRetry service).result = Except.ok 200 →
      get_ai_spec_summary text service (ParseOutcome.malformed m) =
        AiResult.failure specFailureMsg) ∧
    (∀ (items : List LineItem) (service : Service) (m : String),
      (callWithRetry service).result = Except.ok 200 →
      get_ai_estimate_analysis items service (ParseOutcome.malformed m) =
        AiResult.failure analysisFailureMsg) := by
  refine ⟨?_, ?_, ?_, ?_, ?_, ?_, ?_, ?_⟩
  · intro text service parse
    unfold get_ai_spec_summary aiCallBody
    rcases (callWithRetry service).result with m | status
    · exact Or.inr (Or.inl rfl)
    · by_cases h : status = 200
      · subst h
        cases parse with
        | parsed p => exact Or.inl ⟨p, by simp⟩
        | malformed m => exact Or.inr (Or.inl (by simp))
      · exact Or.inr (Or.inr ⟨status, h, by simp [h]⟩)
  · intro items service parse
    unfold get_ai_estimate_analysis aiCallBody
    rcases (callWithRetry service).result with m | status
    · exact Or.inr (Or.inl rfl)
    · by_cases h : status = 200
      · subst h
        cases parse with
        | parsed p => exact Or.inl ⟨p, by simp⟩
        | malformed m => exact Or.inr (Or.inl (by simp))
      · exact Or.inr (Or.inr ⟨status, h, by simp [h]⟩)
  · intro text service parse m hm
    unfold get_ai_spec_summary aiCallBody
    rw [hm]
  · intro items service parse m hm
    unfold get_ai_estimate_analysis aiCallBody
    rw [hm]
  · intro text service parse status hs h
    unfold get_ai_spec_summary aiCallBody
    rw [hs]
    simp [h]
  · intro items service parse status hs h
    unfold get_ai_estimate_analysis aiCallBody
    rw [hs]
    simp [h]
  · intro text service m hs
    unfold get_ai_spec_summary aiCallBody
    rw [hs]
    simp
  · intro items service m hs
    unfold get_ai_estimate_analysis aiCallBody
    rw [hs]
    simp

/-- Closed instance of `ai_operations_never_throw`: exhausting retries on
transport faults yields the spec-summary failure marker, not an
exception. -/
theorem ai_operations_never_throw_witness :
    (callWithRetry (svcAllFaults "a" "b" "c")).result = Except.error "c" ∧
    get_ai_spec_summary "text" (svcAllFaults "a" "b" "c") (ParseOutcome.malformed "x") =
      AiResult.failure specFailureMsg :=
  ⟨rfl, ai_operations_never_throw.2.2.1 "text" (svcAllFaults "a" "b" "c")
    (ParseOutcome.malformed "x") "c" rfl⟩

/-- A concrete scope used by the concrete-store theorems. -/
def scW : Scope :=
  { scope_id := "s1", scope_of_work := "roofing", spec_filename := "spec.pdf",
    ai_summary := AiResult.failure "Could not process spec.",
    estimate_data := [], estimate_analysis := none }

/-- A concrete project holding `scW`. -/
def projW : Project := { id := "p1", project_name := "Acme Tower", scopes := [scW] }

/-- A concrete one-project store. -/
def dbW : Store := [("p1", projW)]

/-- A table whose stripped column labels are Description and Size only:
the required Quantity column is missing. -/
def tblMissingQuantity : Table :=
  { cols := ["Description", " Size "], rows := [⟨some "Panel", some 4, some "EA"⟩] }

/-- C3: the claim says a table missing required columns fails with a
validation error surfaced as a client error naming exactly the missing
columns.  The code does raise that 400 `HTTPException` — but inside its
own `try`, whose `except Exception` clause catches it (HTTPException
subclasses Exception) and re-raises it as a 500 server error wrapping
`str(e)`.  The caller therefore receives a 500, not a client error,
although the wrapped text still names the missing columns. -/
theorem upload_missing_columns_becomes_500 :
    uploadBody tblMissingQuantity =
      Except.error ⟨400, "Missing columns: Quantity"⟩ ∧
    upload_estimate dbW "p1" "s1" (Except.ok tblMissingQuantity) =
      Except.error ⟨500, "Could not read Excel file: 400: Missing columns: Quantity"⟩ :=
  ⟨rfl, rfl⟩

/-- C4: a successful `upload_estimate` leaves the scope's line items
equal to exactly the normalized rows of the uploaded table — so loading
table A and then table B leaves exactly B's rows, a full replace with no
merging or appending. -/
theorem load_estimate_full_replace :
    (∀ (db db' : Store) (pid sid : String) (t : Table),
      upload_estimate db pid sid (Except.ok t) = Except.ok db' →
      scopeItems db' pid sid = some (tableItems t)) ∧
    (∀ (db dbA dbB : Store) (pid sid : String) (A B : Table),
      upload_estimate db pid sid (Except.ok A) = Except.ok dbA →
      upload_estimate dbA pid sid (Except.ok B) = Except.ok dbB →
      scopeItems dbB pid sid = some (tableItems B)) :=
  ⟨fun db db' pid sid t h => upload_estimate_leaves_items db pid sid t db' h,
   fun _ dbA dbB pid sid _ B _ hB => upload_estimate_leaves_items dbA pid sid B dbB hB⟩

/-- First uploaded table for the C4 witness. -/
def tblA : Table :=
  { cols := ["Description", "Quantity", "Size"],
    rows := [⟨some "Panel", some 4, some "EA"⟩] }

/-- Second uploaded table for the C4 witness; its blank-description row
is dropped during normalization. -/
def tblB : Table :=
  { cols := ["Description", "Quantity", " Size"],
    rows := [⟨some "Coping", some 12, some "LF"⟩, ⟨none, some 1, none⟩] }

/-- The store after loading `tblA` into `dbW`'s scope. -/
def dbWA : Store :=
  setProject dbW "p1" (updateScopeAt projW 0 { scW with estimate_data := tableItems tblA })

/-- The store after then loading `tblB`. -/
def dbWB : Store :=
  setProject dbWA "p1"
    (updateScopeAt (updateScopeAt projW 0 { scW with estimate_data := tableItems tblA }) 0
      { scW with estimate_data := tableItems tblB })

/-- Closed instance of `load_estimate_full_replace`: after loading table
A then table B, the scope holds exactly B's normalized rows. -/
theorem load_estimate_full_replace_witness :
    upload_estimate dbW "p1" "s1" (Except.ok tblA) = Except.ok dbWA ∧
    upload_estimate dbWA "p1" "s1" (Except.ok tblB) = Except.ok dbWB ∧
    scopeItems dbWB "p1" "s1" = some (tableItems tblB) :=
  ⟨rfl, rfl, load_estimate_full_replace.2 dbW dbWA dbWB "p1" "s1" tblA tblB rfl rfl⟩

/-- A quantity-10 line item, as freshly loaded. -/
def itQ10 : LineItem :=
  { description := "Metal Roof Panels", quantity := 10, uom := "SQ",
    unitPrice := none, total := none }

/-- A quantity-0 line item, as freshly loaded. -/
def itQ0 : LineItem :=
  { description := "Sealant", quantity := 0, uom := "EA",
    unitPrice := none, total := none }

/-- A scope holding the two items above. -/
def scQ : Scope :=
  { scope_id := "s2", scope_of_work := "walls", spec_filename := "w.pdf",
    ai_summary := AiResult.failure "m", estimate_data := [itQ10, itQ0],
    estimate_analysis := none }

/-- Its project. -/
def projQ : Project := { id := "p2", project_name := "Depot", scopes := [scQ] }

/-- A one-project store holding `scQ`. -/
def dbQ : Store := [("p2", projQ)]

/-- `itQ10` after `update_price` with unit price 5/2. -/
def itQ10priced : LineItem :=
  { itQ10 with unitPrice := some (5 / 2), total := some (itQ10.quantity * (5 / 2)) }

/-- `itQ0` after `update_price` with unit price 7. -/
def itQ0priced : LineItem :=
  { itQ0 with unitPrice := some 7, total := some (itQ0.quantity * 7) }

/-- `dbQ` after pricing item 0. -/
def dbQ0 : Store :=
  setProject dbQ "p2" (updateScopeAt projQ 0 { scQ with estimate_data := [itQ10priced, itQ0] })

/-- `dbQ` after pricing item 1. -/
def dbQ1 : Store :=
  setProject dbQ "p2" (updateScopeAt projQ 0 { scQ with estimate_data := [itQ10, itQ0priced] })

theorem update_price_ok_shape (db : Store) (pid sid : String) (idx : Int) (pr : ℚ)
    (db' : Store) (it' : LineItem)
    (h : update_price db pid sid idx pr = Except.ok (db', it')) :
    ∃ p sc i it, findScopeFull db pid sid = Except.ok (p, sc, i) ∧
      0 ≤ idx ∧ idx < (sc.estimate_data.length : Int) ∧
      sc.estimate_data[idx.toNat]? = some it ∧
      it' = { it with unitPrice := some pr, total := some (it.quantity * pr) } ∧
      db' = setProject db pid (updateScopeAt p i { sc with estimate_data := sc.estimate_data.set idx.toNat it' }) := by
  cases hf : findScopeFull db pid sid with
  | error e => unfold update_price at h; rw [hf] at h; simp at h
  | ok trip =>
      obtain ⟨p, sc, i⟩ := trip
      unfold update_price at h
      rw [hf] at h
      simp only [] at h
      by_cases hb : 0 ≤ idx ∧ idx < (sc.estimate_data.length : Int)
      · rw [if_pos hb] at h
        obtain ⟨h0, hlt⟩ := hb
        have hn : idx.toNat < sc.estimate_data.length := by omega
        have hget : sc.estimate_data[idx.toNat]? =
            some (sc.estimate_data.getD idx.toNat dummyItem) := by
          rw [List.getD_eq_getElem?_getD, List.getElem?_eq_getElem hn]
          rfl
        simp only [Except.ok.injEq, Prod.mk.injEq] at h
        exact ⟨p, sc, i, sc.estimate_data.getD idx.toNat dummyItem, rfl, h0, hlt, hget,
          h.2.symm, by rw [← h.1, ← h.2]⟩
      · rw [if_neg hb] at h
        simp at h

/-- C5: `update_price` with an out-of-range index (negative, or at least
the line-item count — in particular indices `n` and `-1` for a list of
length `n`) fails with the range error and leaves the store unchanged;
with an in-range index it sets the item's unit price and recomputes
total = quantity × unit_price (10 × 2.5 = 25.0, 0 × 7 = 0.0), returning
the updated item. -/
theorem update_price_correct :
    (∀ (db : Store) (pid sid : String) (idx : Int) (pr : ℚ) (p : Project) (sc : Scope) (i : Nat),
      findScopeFull db pid sid = Except.ok (p, sc, i) →
      (idx < 0 ∨ (sc.estimate_data.length : Int) ≤ idx) →
      update_price db pid sid idx pr = Except.error ⟨400, "Item index out of range"⟩ ∧
      step db (Op.updatePrice pid sid idx pr) = db) ∧
    (∀ (db : Store) (pid sid : String) (idx : Int) (pr : ℚ) (p : Project) (sc : Scope)
      (i : Nat) (it : LineItem),
      findScopeFull db pid sid = Except.ok (p, sc, i) →
      0 ≤ idx → idx < (sc.estimate_data.length : Int) →
      sc.estimate_data[idx.toNat]? = some it →
      update_price db pid sid idx pr = Except.ok (setProject db pid (updateScopeAt p i { sc with estimate_data := sc.estimate_data.set idx.toNat { it with unitPrice := some pr, total := some (it.quantity * pr) } }), { it with unitPrice := some pr, total := some (it.quantity * pr) })) ∧
    (update_price dbQ "p2" "s2" 0 (5 / 2) = Except.ok (dbQ0, itQ10priced) ∧
      itQ10priced.unitPrice = some (5 / 2) ∧ itQ10priced.total = some 25) ∧
    (update_price dbQ "p2" "s2" 1 7 = Except.ok (dbQ1, itQ0priced) ∧
      itQ0priced.unitPrice = some 7 ∧ itQ0priced.total = some 0) ∧
    update_price dbQ "p2" "s2" 2 3 = Except.error ⟨400, "Item index out of range"⟩ ∧
    update_price dbQ "p2" "s2" (-1) 3 = Except.error ⟨400, "Item index out of range"⟩ := by
  refine ⟨?_, ?_, ⟨?_, rfl, ?_⟩, ⟨?_, rfl, ?_⟩, ?_, ?_⟩
  · intro db pid sid idx pr p sc i hf hout
    have herr : update_price db pid sid idx pr =
        Except.error ⟨400, "Item index out of range"⟩ := by
      unfold update_price
      rw [hf]
      simp only []
      rw [if_neg (by omega)]
    refine ⟨herr, ?_⟩
    simp only [step, herr]
  · intro db pid sid idx pr p sc i it hf h0 hlt hget
    unfold update_price
    rw [hf]
    simp only []
    rw [if_pos ⟨h0, hlt⟩]
    have hd : sc.estimate_data.getD idx.toNat dummyItem = it := by
      rw [List.getD_eq_getElem?_getD, hget]
      rfl
    rw [hd]
  · rfl
  · show some ((10 : ℚ) * (5 / 2)) = some 25
    norm_num
  · rfl
  · show some ((0 : ℚ) * 7) = some 0
    norm_num
  · rfl
  · rfl

/-- Closed instance of `update_price_correct`: index -1 on a two-item
list fails with the range error and leaves the store unchanged. -/
theorem update_price_correct_witness :
    findScopeFull dbQ "p2" "s2" = Except.ok (projQ, scQ, 0) ∧
    ((-1 : Int) < 0 ∨ ((scQ.estimate_data.length : Int) ≤ -1)) ∧
    update_price dbQ "p2" "s2" (-1) 3 = Except.error ⟨400, "Item index out of range"⟩ ∧
    step dbQ (Op.updatePrice "p2" "s2" (-1) 3) = dbQ :=
  ⟨rfl, Or.inl (by decide),
   (update_price_correct.1 dbQ "p2" "s2" (-1) 3 projQ scQ 0 rfl (Or.inl (by decide))).1,
   (update_price_correct.1 dbQ "p2" "s2" (-1) 3 projQ scQ 0 rfl (Or.inl (by decide))).2⟩

/-- C6: `analyze_estimate` fails with the validation error exactly when
the subset of line items with positive quantity and a present total is
empty; on that failure the whole store — in particular the scope's
previously stored analysis — is unchanged; on a non-empty subset the
scope's analysis result is overwritten wholesale with the fresh AI
analysis of that subset. -/
theorem analyze_estimate_correct :
    ∀ (db : Store) (pid sid : String) (svc : Service) (parse : ParseOutcome)
      (p : Project) (sc : Scope) (i : Nat),
      findScopeFull db pid sid = Except.ok (p, sc, i) →
      (pricedItems sc.estimate_data = [] ↔
        analyze_estimate db pid sid svc parse =
          Except.error ⟨400, "No priced items with quantities found to analyze."⟩) ∧
      (pricedItems sc.estimate_data = [] →
        step db (Op.analyzeEstimate pid sid svc parse) = db) ∧
      (pricedItems sc.estimate_data ≠ [] →
        analyze_estimate db pid sid svc parse = Except.ok (setProject db pid (updateScopeAt p i { sc with estimate_analysis := some (get_ai_estimate_analysis (pricedItems sc.estimate_data) svc parse) }))) := by
  intro db pid sid svc parse p sc i hf
  by_cases hp : pricedItems sc.estimate_data = []
  · have herr : analyze_estimate db pid sid svc parse =
        Except.error ⟨400, "No priced items with quantities found to analyze."⟩ := by
      unfold analyze_estimate
      rw [hf]
      simp only []
      rw [if_pos (List.isEmpty_iff.mpr hp)]
    exact ⟨⟨fun _ => herr, fun _ => hp⟩, fun _ => by simp only [step, herr],
      fun hne => absurd hp hne⟩
  · have hok : analyze_estimate db pid sid svc parse =
        Except.ok (setProject db pid (updateScopeAt p i { sc with estimate_analysis := some (get_ai_estimate_analysis (pricedItems sc.estimate_data) svc parse) })) := by
      unfold analyze_estimate
      rw [hf]
      simp only []
      rw [if_neg (fun hc => hp (List.isEmpty_iff.mp hc))]
    refine ⟨⟨fun he => absurd he hp, fun he => ?_⟩, fun he => absurd he hp, fun _ => hok⟩
    rw [hok] at he
    cases he

/-- Closed instance of `analyze_estimate_correct`: a scope with no
priced items is rejected with the validation error and the store is
unchanged. -/
theorem analyze_estimate_correct_witness :
    findScopeFull dbQ "p2" "s2" = Except.ok (projQ, scQ, 0) ∧
    pricedItems scQ.estimate_data = [] ∧
    analyze_estimate dbQ "p2" "s2" (svcFirst 200) (ParseOutcome.malformed "x") =
      Except.error ⟨400, "No priced items with quantities found to analyze."⟩ ∧
    step dbQ (Op.analyzeEstimate "p2" "s2" (svcFirst 200) (ParseOutcome.malformed "x")) = dbQ :=
  ⟨rfl, rfl,
   ((analyze_estimate_correct dbQ "p2" "s2" (svcFirst 200) (ParseOutcome.malformed "x")
      projQ scQ 0 rfl).1).mp rfl,
   (analyze_estimate_correct dbQ "p2" "s2" (svcFirst 200) (ParseOutcome.malformed "x")
      projQ scQ 0 rfl).2.1 rfl⟩

/-- C7: on an existing project, if the text extracted from the uploaded
document is blank, `add_scope_to_project` short-circuits with the
failure-marker extraction result and makes no AI-client call; and in
every case exactly one new scope is appended to the project, carrying
the extraction result, an empty line-item list, and an absent analysis
result. -/
theorem add_scope_correct :
    ∀ (db : Store) (pid sow sid fname : String) (pdfText : Except String String)
      (svc : Service) (parse : ParseOutcome) (p : Project),
      db.lookup pid = some p →
      (∀ text, pdfText = Except.ok text → pyStrip text = "" →
        add_scope_to_project db pid sow sid fname pdfText svc parse = Except.ok (setProject db pid { p with scopes := p.scopes ++ [{ scope_id := sid, scope_of_work := sow, spec_filename := fname, ai_summary := AiResult.failure "Could not process spec.", estimate_data := [], estimate_analysis := none }] }, 0)) ∧
      (∃ res calls, add_scope_to_project db pid sow sid fname pdfText svc parse = Except.ok (setProject db pid { p with scopes := p.scopes ++ [{ scope_id := sid, scope_of_work := sow, spec_filename := fname, ai_summary := res, estimate_data := [], estimate_analysis := none }] }, calls)) := by
  intro db pid sow sid fname pdfText svc parse p hl
  constructor
  · intro text hok htrim
    subst hok
    unfold add_scope_to_project
    rw [hl]
    simp only []
    rw [if_neg (not_not_intro htrim)]
  · cases pdfText with
    | error m =>
        unfold add_scope_to_project
        rw [hl]
        exact ⟨_, _, rfl⟩
    | ok text =>
        unfold add_scope_to_project
        rw [hl]
        simp only []
        by_cases ht : pyStrip text ≠ ""
        · rw [if_pos ht]
          exact ⟨_, _, rfl⟩
        · rw [if_neg ht]
          exact ⟨_, _, rfl⟩

/-- Closed instance of `add_scope_correct`: whitespace-only extracted
text yields the failure-marker scope with zero AI-client calls. -/
theorem add_scope_correct_witness :
    dbW.lookup "p1" = some projW ∧
    pyStrip "  \n " = "" ∧
    add_scope_to_project dbW "p1" "siding" "s9" "void.pdf" (Except.ok "  \n ")
        (svcFirst 200) (ParseOutcome.malformed "x") =
      Except.ok (setProject dbW "p1" { projW with scopes := projW.scopes ++ [{ scope_id := "s9", scope_of_work := "siding", spec_filename := "void.pdf", ai_summary := AiResult.failure "Could not process spec.", estimate_data := [], estimate_analysis := none }] }, 0) :=
  ⟨rfl, rfl,
   (add_scope_correct dbW "p1" "siding" "s9" "void.pdf" (Except.ok "  \n ")
      (svcFirst 200) (ParseOutcome.malformed "x") projW rfl).1 "  \n " rfl rfl⟩

/-- The pricing invariant on one project. -/
def projOk (p : Project) : Prop :=
  ∀ sc ∈ p.scopes, ∀ it ∈ sc.estimate_data, itemPriced it = true

theorem invStore_iff (db : Store) :
    invStore db = true ↔ ∀ kv ∈ db, projOk kv.2 := by
  simp [invStore, List.all_eq_true, projOk]

theorem lookup_mem : ∀ (db : Store) (pid : String) (p : Project),
    db.lookup pid = some p → ∃ kv ∈ db, kv.2 = p := by
  intro db
  induction db with
  | nil => intro pid p h; simp [List.lookup] at h
  | cons kv rest ih =>
      intro pid p h
      obtain ⟨k1, v1⟩ := kv
      cases hb : (pid == k1) with
      | true =>
          simp only [List.lookup, hb, Option.some.injEq] at h
          subst h
          exact ⟨(k1, v1), List.mem_cons_self _ _, rfl⟩
      | false =>
          simp only [List.lookup, hb] at h
          obtain ⟨kv', hm, he⟩ := ih pid p h
          exact ⟨kv', List.mem_cons_of_mem _ hm, he⟩

theorem invStore_lookup (db : Store) (pid : String) (p : Project)
    (hdb : invStore db = true) (hl : db.lookup pid = some p) : projOk p := by
  obtain ⟨kv, hm, he⟩ := lookup_mem db pid p hl
  have h := (invStore_iff db).mp hdb kv hm
  rwa [he] at h

theorem invStore_setProject (db : Store) (pid : String) (p' : Project)
    (hdb : invStore db = true) (hp : projOk p') :
    invStore (setProject db pid p') = true := by
  rw [invStore_iff] at hdb ⊢
  intro kv hkv
  unfold setProject at hkv
  obtain ⟨kv0, h0, heq⟩ := List.mem_map.mp hkv
  cases hb : (kv0.1 == pid) with
  | true =>
      rw [hb, cond_true] at heq
      rw [← heq]
      exact hp
  | false =>
      rw [hb, cond_false] at heq
      rw [← heq]
      exact hdb kv0 h0

theorem tableItems_fresh (t : Table) :
    ∀ it ∈ tableItems t, it.total = none ∧ it.unitPrice = none := by
  intro it h
  unfold tableItems at h
  obtain ⟨r, _, hr⟩ := List.mem_map.mp (List.mem_of_mem_filter h)
  rw [← hr]
  exact ⟨rfl, rfl⟩

theorem itemPriced_of_no_total (it : LineItem) (h : it.total = none) :
    itemPriced it = true := by
  unfold itemPriced
  rw [h]

theorem findScopeFull_scope_mem (db : Store) (pid sid : String) (p : Project)
    (sc : Scope) (i : Nat) (hf : findScopeFull db pid sid = Except.ok (p, sc, i)) :
    sc ∈ p.scopes := by
  have h2 := ((findScopeFull_ok_iff db pid sid p sc i).mp hf).2
  obtain ⟨hg, _, _⟩ := findScopeIn_get p.scopes sid 0 i sc h2
  rw [Nat.sub_zero] at hg
  exact List.getElem?_mem hg

theorem step_preserves_inv :
    ∀ (db : Store) (op : Op), invStore db = true → invStore (step db op) = true := by
  intro db op hdb
  cases op with
  | createProject pid name =>
      show invStore (create_project db pid name) = true
      unfold create_project dictInsert
      cases hl : (db.lookup pid).isSome with
      | true =>
          rw [cond_true]
          apply invStore_setProject db pid _ hdb
          intro sc hsc
          exact absurd hsc (List.not_mem_nil sc)
      | false =>
          rw [cond_false]
          rw [invStore_iff] at hdb ⊢
          intro kv hkv
          rcases List.mem_append.mp hkv with hin | hin
          · exact hdb kv hin
          · rw [List.mem_singleton.mp hin]
            intro sc hsc
            exact absurd hsc (List.not_mem_nil sc)
  | deleteProject pid =>
      simp only [step]
      cases hd : delete_project db pid with
      | error e => exact hdb
      | ok db' =>
          show invStore db' = true
          unfold delete_project at hd
          cases hl : (db.lookup pid).isSome with
          | true =>
              rw [hl, cond_true] at hd
              simp only [Except.ok.injEq] at hd
              subst hd
              rw [invStore_iff] at hdb ⊢
              intro kv hkv
              exact hdb kv (List.mem_of_mem_filter hkv)
          | false =>
              rw [hl, cond_false] at hd
              simp at hd
  | addScope pid sow sid fname pdf svc parse =>
      simp only [step]
      cases ha : add_scope_to_project db pid sow sid fname pdf svc parse with
      | error e => exact hdb
      | ok pr =>
          obtain ⟨db', calls⟩ := pr
          show invStore db' = true
          unfold add_scope_to_project at ha
          cases hl : db.lookup pid with
          | none => rw [hl] at ha; simp at ha
          | some p =>
              rw [hl] at ha
              simp only [Except.ok.injEq, Prod.mk.injEq] at ha
              obtain ⟨hdb', _⟩ := ha
              rw [← hdb']
              apply invStore_setProject db pid _ hdb
              intro sc hsc it hit
              rcases List.mem_append.mp hsc with hin | hin
              · exact invStore_lookup db pid p hdb hl sc hin it hit
              · rw [List.mem_singleton.mp hin] at hit
                exact absurd hit (List.not_mem_nil it)
  | uploadEstimate pid sid file =>
      simp only [step]
      cases hu : upload_estimate db pid sid file with
      | error e => exact hdb
      | ok db' =>
          show invStore db' = true
          cases file with
          | error m =>
              exfalso
              unfold upload_estimate at hu
              cases hf : findScopeFull db pid sid with
              | error e => rw [hf] at hu; simp at hu
              | ok trip =>
                  obtain ⟨p, sc, i⟩ := trip
                  rw [hf] at hu
                  simp at hu
          | ok t =>
              obtain ⟨p, sc, i, hf, _, hdb'⟩ := upload_estimate_ok_shape db pid sid t db' hu
              subst hdb'
              have hl : db.lookup pid = some p :=
                ((findScopeFull_ok_iff db pid sid p sc i).mp hf).1
              apply invStore_setProject db pid _ hdb
              intro sc' hsc' it hit
              rcases List.mem_or_eq_of_mem_set hsc' with hin | heq
              · exact invStore_lookup db pid p hdb hl sc' hin it hit
              · rw [heq] at hit
                exact itemPriced_of_no_total it (tableItems_fresh t it hit).1
  | updatePrice pid sid idx price =>
      simp only [step]
      cases hu : update_price db pid sid idx price with
      | error e => exact hdb
      | ok pr =>
          obtain ⟨db', it'⟩ := pr
          show invStore db' = true
          obtain ⟨p, sc, i, it, hf, _, _, _, hit', hdb'⟩ :=
            update_price_ok_shape db pid sid idx price db' it' hu
          subst hdb'
          have hl : db.lookup pid = some p :=
            ((findScopeFull_ok_iff db pid sid p sc i).mp hf).1
          have hscm : sc ∈ p.scopes := findScopeFull_scope_mem db pid sid p sc i hf
          apply invStore_setProject db pid _ hdb
          intro sc2 hsc2 it2 hit2
          rcases List.mem_or_eq_of_mem_set hsc2 with hin | heq
          · exact invStore_lookup db pid p hdb hl sc2 hin it2 hit2
          · rw [heq] at hit2
            rcases List.mem_or_eq_of_mem_set hit2 with hin2 | heq2
            · exact invStore_lookup db pid p hdb hl sc hscm it2 hin2
            · rw [heq2, hit']
              unfold itemPriced
              exact beq_self_eq_true _
  | analyzeEstimate pid sid svc parse =>
      simp only [step]
      cases ha : analyze_estimate db pid sid svc parse with
      | error e => exact hdb
      | ok db' =>
          show invStore db' = true
          unfold analyze_estimate at ha
          cases hf : findScopeFull db pid sid with
          | error e => rw [hf] at ha; simp at ha
          | ok trip =>
              obtain ⟨p, sc, i⟩ := trip
              rw [hf] at ha
              simp only [] at ha
              by_cases hp : (pricedItems sc.estimate_data).isEmpty
              · rw [if_pos hp] at ha
                simp at ha
              · rw [if_neg hp] at ha
                simp only [Except.ok.injEq] at ha
                subst ha
                have hl : db.lookup pid = some p :=
                  ((findScopeFull_ok_iff db pid sid p sc i).mp hf).1
                have hscm : sc ∈ p.scopes := findScopeFull_scope_mem db pid sid p sc i hf
                apply invStore_setProject db pid _ hdb
                intro sc2 hsc2 it2 hit2
                rcases List.mem_or_eq_of_mem_set hsc2 with hin | heq
                · exact invStore_lookup db pid p hdb hl sc2 hin it2 hit2
                · rw [heq] at hit2
                  exact invStore_lookup db pid p hdb hl sc hscm it2 hit2

/-- C9: in every store state reachable by the public operations, every
line item with a total also carries a unit price and total = quantity ×
unit price; `itemPriced` captures exactly that reading; freshly loaded
items carry neither a total nor a unit price. -/
theorem pricing_invariant_reachable :
    (∀ it : LineItem, itemPriced it = true ↔
      ∀ tt, it.total = some tt → ∃ pp, it.unitPrice = some pp ∧ tt = it.quantity * pp) ∧
    (∀ ops : List Op, invStore (run ops) = true) ∧
    (∀ (t : Table) (it : LineItem), it ∈ tableItems t →
      it.total = none ∧ it.unitPrice = none) := by
  refine ⟨?_, ?_, fun t it h => tableItems_fresh t it h⟩
  · intro it
    rcases it with ⟨d, q, u, up, tot⟩
    cases tot with
    | none =>
        constructor
        · intro _ tt htt
          simp at htt
        · intro _
          cases up with
          | none => rfl
          | some p0 => rfl
    | some t0 =>
        cases up with
        | none =>
            constructor
            · intro hfalse
              simp [itemPriced] at hfalse
            · intro hr
              obtain ⟨pp, hpp, _⟩ := hr t0 rfl
              simp at hpp
        | some p0 =>
            constructor
            · intro htrue tt htt
              simp only [Option.some.injEq] at htt
              subst htt
              refine ⟨p0, rfl, ?_⟩
              have hb : (t0 == q * p0) = true := by
                simpa [itemPriced] using htrue
              exact beq_iff_eq.mp hb
            · intro hr
              obtain ⟨pp, hpp, he⟩ := hr t0 rfl
              simp only [Option.some.injEq] at hpp
              subst hpp
              simp [itemPriced, he]
  · intro ops
    have main : ∀ (l : List Op) (db : Store), invStore db = true →
        invStore (l.foldl step db) = true := by
      intro l
      induction l with
      | nil => intro db h; simpa using h
      | cons op rest ih => intro db h; exact ih (step db op) (step_preserves_inv db op h)
    exact main ops [] rfl

/-- Closed instance of `pricing_invariant_reachable`: a concrete run
satisfies the invariant and a concrete freshly-normalized item has no
total and no unit price. -/
theorem pricing_invariant_reachable_witness :
    invStore (run [Op.createProject "p1" "Acme", Op.updatePrice "p1" "s1" 0 2]) = true ∧
    (⟨"Panel", 4, "EA", none, none⟩ : LineItem) ∈ tableItems tblA ∧
    (⟨"Panel", 4, "EA", none, none⟩ : LineItem).total = none ∧
    (⟨"Panel", 4, "EA", none, none⟩ : LineItem).unitPrice = none :=
  ⟨pricing_invariant_reachable.2.1 _, by decide,
   (pricing_invariant_reachable.2.2 tblA ⟨"Panel", 4, "EA", none, none⟩ (by decide)).1,
   (pricing_invariant_reachable.2.2 tblA ⟨"Panel", 4, "EA", none, none⟩ (by decide)).2⟩

/-- The frame contract of a successful `update_price` call on
`(db, pid, sid, idx, pr)` producing `(db', it')`: only the unit price
and total of the addressed item change; every other project, every
other scope, every other field of the addressed scope, and every other
line item are unchanged. -/
def UpdatePriceFrame (db db' : Store) (pid sid : String) (idx : Int) (pr : ℚ)
    (it' : LineItem) : Prop :=
  (∀ k, k ≠ pid → db'.lookup k = db.lookup k) ∧
  (∃ p p', db.lookup pid = some p ∧ db'.lookup pid = some p' ∧
    p'.id = p.id ∧ p'.project_name = p.project_name ∧
    p'.scopes.length = p.scopes.length ∧
    ∃ i, i < p.scopes.length ∧
      (∀ j, j ≠ i → p'.scopes[j]? = p.scopes[j]?) ∧
      ∃ sc sc', p.scopes[i]? = some sc ∧ p'.scopes[i]? = some sc' ∧
        sc.scope_id = sid ∧
        sc'.scope_id = sc.scope_id ∧ sc'.scope_of_work = sc.scope_of_work ∧
        sc'.spec_filename = sc.spec_filename ∧ sc'.ai_summary = sc.ai_summary ∧
        sc'.estimate_analysis = sc.estimate_analysis ∧
        sc'.estimate_data.length = sc.estimate_data.length ∧
        ∃ n : Nat, idx = (n : Int) ∧ n < sc.estimate_data.length ∧
          (∀ m, m ≠ n → sc'.estimate_data[m]? = sc.estimate_data[m]?) ∧
          ∃ it, sc.estimate_data[n]? = some it ∧
            sc'.estimate_data[n]? = some it' ∧
            it' = { it with unitPrice := some pr, total := some (it.quantity * pr) })

/-- C10: a successful `update_price` modifies only the unit price and
total of the line item at the addressed index; every other line item of
that scope, every other field of that scope (its extraction and analysis
results included), every other scope, and every other project are
exactly unchanged. -/
theorem update_price_frame :
    ∀ (db db' : Store) (pid sid : String) (idx : Int) (pr : ℚ) (it' : LineItem),
      update_price db pid sid idx pr = Except.ok (db', it') →
      UpdatePriceFrame db db' pid sid idx pr it' := by
  intro db db' pid sid idx pr it' h
  obtain ⟨p, sc, i, it, hf, h0, hlt, hget, hit', hdb'⟩ :=
    update_price_ok_shape db pid sid idx pr db' it' h
  obtain ⟨hl, hfi⟩ := (findScopeFull_ok_iff db pid sid p sc i).mp hf
  obtain ⟨hgi, hsid, hilt⟩ := findScopeIn_get p.scopes sid 0 i sc hfi
  rw [Nat.sub_zero] at hgi hilt
  subst hdb'
  have hn : idx.toNat < sc.estimate_data.length := by omega
  refine ⟨fun k hk => lookup_setProject_ne pid k _ hk db,
    p, updateScopeAt p i { sc with estimate_data := sc.estimate_data.set idx.toNat it' },
    hl, lookup_setProject_self pid _ db p hl, rfl, rfl, List.length_set _ _ _,
    i, hilt, fun j hj => List.getElem?_set_ne (Ne.symm hj),
    sc, { sc with estimate_data := sc.estimate_data.set idx.toNat it' },
    hgi, List.getElem?_set_eq_of_lt _ hilt, hsid, rfl, rfl, rfl, rfl, rfl,
    List.length_set _ _ _,
    idx.toNat, (Int.toNat_of_nonneg h0).symm, hn,
    fun m hm => List.getElem?_set_ne (Ne.symm hm),
    it, hget, List.getElem?_set_eq_of_lt _ hn, hit'⟩

/-- Closed instance of `update_price_frame` at a concrete store. -/
theorem update_price_frame_witness :
    update_price dbQ "p2" "s2" 0 (5 / 2) = Except.ok (dbQ0, itQ10priced) ∧
    UpdatePriceFrame dbQ dbQ0 "p2" "s2" 0 (5 / 2) itQ10priced :=
  ⟨rfl, update_price_frame dbQ dbQ0 "p2" "s2" 0 (5 / 2) itQ10priced rfl⟩

/-- C8: startup snapshot loading: a missing snapshot leaves the store
empty (the table a fresh process starts with), a corrupted snapshot
resets any current table to the empty store, and a well-formed snapshot
restores the full project table. -/
theorem load_db_recovery :
    load_db [] SnapshotFile.missing = [] ∧
    (∀ (current : Store) (m : String), load_db current (SnapshotFile.corrupted m) = []) ∧
    (∀ (current db : Store), load_db current (SnapshotFile.wellFormed db) = db) :=
  ⟨rfl, fun _ _ => rfl, fun _ _ => rfl⟩

end MegaAiApp
